import Mathlib

/-!
Verification development for the per-window controller of `src/app/ui/window.js`
(session multiplexing between one window's RPC channel and N terminal sessions).

The controller is single-threaded and event-driven, so it is embedded as a
step function on an explicit window state.  Inbound events (UI commands arriving
on the RPC channel and data/exit events produced by the backing pty processes)
drive the step function; outbound RPC emissions are recorded in a trace.

Because JavaScript objects are aliased references, the registry is modelled as
an insertion-ordered list of registered uids (`reg`, the keys of the `sessions`
Map) over an append-only object store (`heap`); deleting a map entry does not
destroy the underlying session object, exactly as in the source.
-/

/-- A JavaScript options object as it appears in this file: every field may be
absent (`none`).  Mirrors the option bags passed to `createSession` and the
defaults object built in the `rpc.on('new')` handler. -/
structure SOpts where
  uid : Option String := none
  rows : Option Nat := none
  cols : Option Nat := none
  cwd : Option String := none
  splitDirection : Option String := none
  shell : Option String := none
  shellArgs : Option (List String) := none
deriving Repr, DecidableEq

/-- Modelled from the spec: the external Session collaborator (spec 6) as far as
this controller observes it.  It records the constructor options, exposes the
spawned shell path (the configured shell when the options carry none) and pid,
and records the `write` / `resize` / `exit` / `destroy` / `removeAllListeners`
calls the controller makes on it. -/
structure Session where
  opts : SOpts
  shell : String
  pid : Nat
  writes : List String := []
  resizes : List (Nat × Nat) := []
  exitRequested : Bool := false
  destroyed : Bool := false
  listenersRemoved : Bool := false
deriving Repr, DecidableEq

/-- Payload of the outbound `session add` event (window.js lines 143-150). -/
structure AddPayload where
  rows : Option Nat
  cols : Option Nat
  uid : String
  splitDirection : Option String
  shell : String
  pid : Nat
deriving Repr, DecidableEq

/-- Outbound RPC events this development observes.  The `session exit` payload
is optional because the buffered variant (window.js line 104) is pushed
without any payload while the live variant (line 164) carries `\x7buid\x7d`. -/
inductive OutEvent where
  | sessionAdd (p : AddPayload)
  | sessionData (s : String)
  | sessionExit (uid : Option String)
deriving Repr, DecidableEq

/-- The closure state of `createInitialSession`: the warmed session's identity
(uid plus the immutable attributes the `new` handler reads), the pending event
buffer `initialEvents` — whose entries are the exact `rpc.emit` argument lists
pushed at window.js lines 103-104, so a buffered exit is `sessionExit none` —
and whether the temporary data/exit handlers are still attached. -/
structure Warm where
  uid : String
  shell : String
  pid : Nat
  buffer : List OutEvent
  tempAttached : Bool
deriving Repr, DecidableEq

/-- Inbound events handled by the controller: pty-produced data/exit events of
a session, and the UI-issued RPC commands relevant to the claims. -/
inductive InEvent where
  | ptyData (uid data : String)
  | ptyExit (uid : String)
  | rpcNew (o : SOpts)
  | rpcExit (uid : String)
  | rpcResize (uid : String) (cols rows : Nat)
  | rpcData (uid data : String) (escaped : Bool)
  | didNavigate
deriving Repr, DecidableEq

/-- External collaborators and ambient configuration read by the handlers:
`workingDirectory` (the optional argument of `attachRPC`), `process.argv[1]`,
the `isAbsolute` predicate of the path module, the config directory, and the
current config's shell and shellArgs. -/
structure Env where
  workingDirectory : Option String
  argv1 : Option String
  isAbs : String → Bool
  cfgDir : String
  cfgShell : String
  cfgShellArgs : Option (List String)

/-- The per-window controller state.  `heap` is the append-only object store,
`reg` the insertion-ordered key set of the `sessions` Map, `liveUids` the uids
that have the permanent data/exit listeners attached by the `new` handler,
`warm` the `initialSession` closure state, `trace` the outbound emissions,
`navCount` the `did-navigate` counter `i`.  `nextId` feeds fresh uid/pid
generation (standing in for `uuid.v4()` and the OS pid).  `flushCount` and
`deleteCount` are ghost counters of `flushEvents` / `deleteSessions`
invocations; the remaining booleans record the teardown actions of `clean`. -/
structure WinState where
  heap : List (String × Session)
  reg : List String
  liveUids : List String
  warm : Option Warm
  trace : List OutEvent
  navCount : Nat
  nextId : Nat
  flushCount : Nat
  deleteCount : Nat
  winRecorded : Bool
  rpcDestroyed : Bool
  cfgUnsubscribed : Bool
  pluginsUnsubscribed : Bool
deriving Repr, DecidableEq

/-- Fresh opaque identifier for the n-th created session (stands in for
`uuid.v4()`; only pairwise distinctness matters). -/
def freshUid (n : Nat) : String :=
  String.mk (List.replicate (n + 1) 'u')

/-- `sessions.get(uid)`: a lookup that answers only for registered uids. -/
def sessionsGet (st : WinState) (uid : String) : Option Session :=
  if uid ∈ st.reg then st.heap.lookup uid else none

/-- Apply `f` to the session object stored under `uid` (mutation of the shared
object, visible through every alias). -/
def updateHeap (h : List (String × Session)) (uid : String) (f : Session → Session) :
    List (String × Session) :=
  h.map (fun p => if p.1 = uid then (p.1, f p.2) else p)

/-- `rpc.emit(...)`: append one outbound event to the trace. -/
def emitEv (st : WinState) (e : OutEvent) : WinState :=
  { st with trace := st.trace ++ [e] }

/-- `createSession(options)` (window.js lines 91-96): allocate a fresh uid,
construct a Session with the options extended by that uid, and register it.
The options argument is optional because the `new` handler calls it with no
argument at all (line 140). -/
def createSession (env : Env) (o : Option SOpts) (st : WinState) :
    String × Session × WinState :=
  let uid := freshUid st.nextId
  let base : SOpts := o.getD {}
  let sOpts : SOpts := { base with uid := some uid }
  let s : Session :=
    { opts := sOpts, shell := sOpts.shell.getD env.cfgShell, pid := st.nextId }
  (uid, s,
    { st with
      heap := st.heap ++ [(uid, s)]
      reg := st.reg ++ [uid]
      nextId := st.nextId + 1 })

/-- The window state right after the `BrowserWindow` is constructed and the
`sessions` Map created, before `attachRPC` runs (the state in which the win32
pre-attach `window.clean` operates). -/
def preAttachState : WinState :=
  { heap := [], reg := [], liveUids := [], warm := none, trace := []
    navCount := 0, nextId := 0, flushCount := 0, deleteCount := 0
    winRecorded := false, rpcDestroyed := false
    cfgUnsubscribed := false, pluginsUnsubscribed := false }

/-- `createInitialSession()` (window.js lines 100-117): create one session with
empty options and attach the temporary buffering handlers for its data/exit
events. -/
def createInitialSession (env : Env) (st : WinState) : WinState :=
  let r := createSession env (some {}) st
  { r.2.2 with
    warm := some
      { uid := r.1, shell := r.2.1.shell, pid := r.2.1.pid
        buffer := [], tempAttached := true } }

/-- The state right after `attachRPC`: handlers registered and the initial
session warmed. -/
def initState (env : Env) : WinState :=
  createInitialSession env preAttachState

/-- `process.argv[1] && isAbsolute(process.argv[1]) ? process.argv[1] : cfgDir`
guarded by the `workingDirectory` override (window.js lines 120-126). -/
def resolveCwd (env : Env) : String :=
  match env.workingDirectory with
  | some wd => wd
  | none =>
    match env.argv1 with
    | some a => if env.isAbs a then a else env.cfgDir
    | none => env.cfgDir

/-- `Object.assign({rows: 40, cols: 100, cwd, splitDirection: undefined,
shell: cfg.shell, shellArgs: cfg.shellArgs && Array.from(cfg.shellArgs)},
options)` (window.js lines 128-138). -/
def mergedSessionOpts (env : Env) (o : SOpts) : SOpts :=
  { uid := o.uid
    rows := o.rows <|> some 40
    cols := o.cols <|> some 100
    cwd := o.cwd <|> some (resolveCwd env)
    splitDirection := o.splitDirection
    shell := o.shell <|> some env.cfgShell
    shellArgs := o.shellArgs <|> env.cfgShellArgs }

/-- The object emitted as `session add` (window.js lines 143-150): geometry and
split direction from the merged options, shell and pid from the session. -/
def addPayload (sessionOpts : SOpts) (uid : String) (shell : String) (pid : Nat) :
    AddPayload :=
  { rows := sessionOpts.rows, cols := sessionOpts.cols, uid := uid
    splitDirection := sessionOpts.splitDirection, shell := shell, pid := pid }

/-- JavaScript `String.prototype.endsWith`: is `suffix` a character-suffix of
`s`? -/
def jsEndsWith (s suffix : String) : Bool :=
  suffix.data.isSuffixOf s.data

/-- `data.replace(/'/g, "'\\''")` on the character list of the data string:
every single quote becomes quote, backslash, quote, quote. -/
def escBody : List Char → List Char
  | [] => []
  | c :: cs =>
    if c == '\'' then '\'' :: '\\' :: '\'' :: '\'' :: escBody cs
    else c :: escBody cs

/-- The escaped-write quoting of the `data` handler (window.js lines 193-195):
double-quote wrap when the session's shell ends with `cmd.exe`, otherwise a
single-quote wrap of the quote-replaced data. -/
def escapeData (shell data : String) : String :=
  if jsEndsWith shell "cmd.exe" then "\"" ++ data ++ "\""
  else String.mk ('\'' :: escBody data.data ++ ['\''])

/-- `session.removeAllListeners()` for the session object `uid`: drops its
permanent handlers, drops the warmer's temporary handlers when it is the
warmed session, and marks the object. -/
def removeAllListenersOf (st : WinState) (uid : String) : WinState :=
  { st with
    liveUids := st.liveUids.filter (fun u => u != uid)
    warm := st.warm.map (fun w => if w.uid = uid then { w with tempAttached := false } else w)
    heap := updateHeap st.heap uid (fun s => { s with listenersRemoved := true }) }

/-- One iteration of the `deleteSessions` forEach (window.js lines 231-235):
`session.removeAllListeners(); session.destroy(); sessions.delete(key)`. -/
def teardownOne (st : WinState) (uid : String) : WinState :=
  let st1 := removeAllListenersOf st uid
  let st2 := { st1 with heap := updateHeap st1.heap uid (fun s => { s with destroyed := true }) }
  { st2 with reg := st2.reg.filter (fun u => u != uid) }

/-- `deleteSessions` (window.js lines 230-236), with a ghost invocation
counter. -/
def deleteSessions (st : WinState) : WinState :=
  let st1 := st.reg.foldl teardownOne st
  { st1 with deleteCount := st1.deleteCount + 1 }

/-- The controller's reaction to one inbound event: the registered RPC
handlers and the pty listeners of `src/app/ui/window.js`. -/
def step (env : Env) (st : WinState) : InEvent → WinState
  | .ptyData uid d =>
    -- temporary warmer handler (line 103), then permanent handler (line 159)
    let st1 :=
      match st.warm with
      | some w =>
        if w.tempAttached ∧ w.uid = uid then
          { st with warm := some { w with buffer := w.buffer ++ [OutEvent.sessionData (uid ++ d)] } }
        else st
      | none => st
    if uid ∈ st.liveUids then emitEv st1 (.sessionData (uid ++ d)) else st1
  | .ptyExit uid =>
    -- temporary warmer handler (line 104), then permanent handler (lines 163-166)
    let st1 :=
      match st.warm with
      | some w =>
        if w.tempAttached ∧ w.uid = uid then
          { st with warm := some { w with buffer := w.buffer ++ [OutEvent.sessionExit none] } }
        else st
      | none => st
    if uid ∈ st.liveUids then
      let st2 := emitEv st1 (.sessionExit (some uid))
      { st2 with reg := st2.reg.filter (fun u => u != uid) }
    else st1
  | .rpcNew o =>
    let sessionOpts := mergedSessionOpts env o
    match st.warm with
    | some w =>
      -- reuse of the warmed session: `initialSession || createSession()`
      let st1 := { st with reg := if w.uid ∈ st.reg then st.reg else st.reg ++ [w.uid] }
      let st2 := emitEv st1 (.sessionAdd (addPayload sessionOpts w.uid w.shell w.pid))
      -- flushEvents(): replay the buffer in order, detach temporary handlers,
      -- then `initialSession = null`
      let st3 := { st2 with
        trace := st2.trace ++ w.buffer
        flushCount := st2.flushCount + 1
        warm := none }
      { st3 with liveUids := st3.liveUids ++ [w.uid] }
    | none =>
      -- note: `createSession()` is called with no argument here (line 140)
      let r := createSession env none st
      let st1 := emitEv r.2.2 (.sessionAdd (addPayload sessionOpts r.1 r.2.1.shell r.2.1.pid))
      { st1 with liveUids := st1.liveUids ++ [r.1] }
  | .rpcExit uid =>
    match sessionsGet st uid with
    | some _ => { st with heap := updateHeap st.heap uid (fun s => { s with exitRequested := true }) }
    | none => st
  | .rpcResize uid cols rows =>
    match sessionsGet st uid with
    | some _ =>
      { st with heap := updateHeap st.heap uid (fun s => { s with resizes := s.resizes ++ [(cols, rows)] }) }
    | none => st
  | .rpcData uid data escaped =>
    match sessionsGet st uid with
    | some s =>
      let out := if escaped then escapeData s.shell data else data
      { st with heap := updateHeap st.heap uid (fun s2 => { s2 with writes := s2.writes ++ [out] }) }
    | none => st
  | .didNavigate =>
    -- `if (i++) deleteSessions();` (lines 239-244)
    let st1 := if st.navCount = 0 then st else deleteSessions st
    { st1 with navCount := st.navCount + 1 }

/-- Process a list of inbound events in order. -/
def run (env : Env) : WinState → List InEvent → WinState
  | st, [] => st
  | st, e :: es => run env (step env st e) es

/-- `window.clean` as installed by `attachRPC` (window.js lines 302-308). -/
def clean (st : WinState) : WinState :=
  let st1 := { st with winRecorded := true }
  let st2 := { st1 with rpcDestroyed := true }
  let st3 := deleteSessions st2
  let st4 := { st3 with cfgUnsubscribed := true }
  { st4 with pluginsUnsubscribed := true }

/-- The win32 pre-attach `window.clean` (window.js lines 319-322): only the
recency record and the config unsubscribe. -/
def cleanPreAttach (st : WinState) : WinState :=
  { st with winRecorded := true, cfgUnsubscribed := true }

/-- A concrete environment used by witnesses: no working-directory override,
no argv path, POSIX-style absolute-path test, bash as the configured shell. -/
def envW : Env :=
  { workingDirectory := none, argv1 := none
    isAbs := fun s => s.startsWith "/"
    cfgDir := "/cfg", cfgShell := "/bin/bash", cfgShellArgs := none }

/-- Modelled from the spec: evaluation of one written word by the destination
POSIX shell (spec 7, quoting taxonomy).  Inside single quotes every character
is literal until the closing quote; outside quotes a backslash makes the next
character literal; an unquoted metacharacter, double quote, or unterminated
construct means the data is not delivered as the single literal word (`none`).
Double-quote syntax is not modelled: the single-quote strategy never emits an
unquoted double quote. -/
def isShMeta (c : Char) : Bool :=
  c == ' ' || c == '\t' || c == '\n' || c == '|' || c == '&' || c == ';' ||
  c == '<' || c == '>' || c == '(' || c == ')' || c == '$' || c == '*' ||
  c == '?' || c == '[' || c == '#' || c == '~' || c == '"' || c == Char.ofNat 96

def shEvalAux : Bool → List Char → Option (List Char)
  | true, [] => none
  | true, c :: rest =>
    if c == '\'' then shEvalAux false rest
    else (shEvalAux true rest).map (fun l => c :: l)
  | false, [] => some []
  | false, c :: rest =>
    if c == '\'' then shEvalAux true rest
    else if c == '\\' then
      match rest with
      | [] => none
      | d :: rest2 => (shEvalAux false rest2).map (fun l => d :: l)
    else if isShMeta c then none
    else (shEvalAux false rest).map (fun l => c :: l)

/-- POSIX-shell evaluation of a word, starting outside any quote. -/
def shEval (l : List Char) : Option (List Char) :=
  shEvalAux false l

/-- Modelled from the spec: cmd.exe's reading of one written argument.  Double
quotes toggle quoted mode and are removed; inside quotes characters are
literal; outside quotes a metacharacter is interpreted by the shell (`none`,
the data escaped the quoting); an unterminated quote is tolerated. -/
def isCmdMeta (c : Char) : Bool :=
  c == '&' || c == '|' || c == '<' || c == '>' || c == '^' || c == '%' ||
  c == ' ' || c == '\t'

def cmdEvalAux : Bool → List Char → Option (List Char)
  | _, [] => some []
  | inQ, c :: rest =>
    if c == '"' then cmdEvalAux (!inQ) rest
    else if inQ then (cmdEvalAux true rest).map (fun l => c :: l)
    else if isCmdMeta c then none
    else (cmdEvalAux false rest).map (fun l => c :: l)

/-- cmd.exe evaluation of a written argument, starting outside quotes. -/
def cmdEval (l : List Char) : Option (List Char) :=
  cmdEvalAux false l

/-- The warm-slot contents created by `createInitialSession` in a fresh
window. -/
def initWarm (env : Env) : Warm :=
  { uid := freshUid 0, shell := env.cfgShell, pid := 0, buffer := [], tempAttached := true }

/-- Uid bookkeeping invariant: the object store holds exactly the sessions
created so far (uids `freshUid 0 .. freshUid (nextId-1)` in order), every
registered uid denotes a stored object, and so does the warmed session's. -/
def uidInv (st : WinState) : Prop :=
  st.heap.map Prod.fst = (List.range st.nextId).map freshUid ∧
  (∀ u ∈ st.reg, u ∈ st.heap.map Prod.fst) ∧
  (∀ w, st.warm = some w → w.uid ∈ st.heap.map Prod.fst)

/-- Flush bookkeeping invariant: while the warm slot is occupied no flush has
happened, and the flush counter never exceeds one. -/
def flushInv (st : WinState) : Prop :=
  (∀ w, st.warm = some w → st.flushCount = 0) ∧ st.flushCount ≤ 1

/-- Unfolding equations for `shEvalAux` at the concrete characters the
single-quote escaper emits. -/
theorem shEvalAux_false_quote (rest : List Char) :
    shEvalAux false ('\'' :: rest) = shEvalAux true rest := by
  cases rest with
  | nil => decide
  | cons d rest =>
    conv_lhs => rw [shEvalAux]
    rw [if_pos (by decide)]

theorem shEvalAux_true_quote (rest : List Char) :
    shEvalAux true ('\'' :: rest) = shEvalAux false rest := by
  conv_lhs => rw [shEvalAux]
  rw [if_pos (by decide)]

theorem shEvalAux_false_backslash (d : Char) (rest : List Char) :
    shEvalAux false ('\\' :: d :: rest) = (shEvalAux false rest).map (fun l => d :: l) := by
  conv_lhs => rw [shEvalAux]
  rw [if_neg (by decide), if_pos (by decide)]

/-- Single-quote-mode evaluation of a quote-replaced body: the shell
reassembles exactly the original characters and continues after the closing
quote. -/
theorem shEvalAux_escBody (cs : List Char) : ∀ suffix : List Char,
    shEvalAux true (escBody cs ++ '\'' :: suffix) =
      (shEvalAux false suffix).map (fun l => cs ++ l) := by
  induction cs with
  | nil =>
    intro suffix
    simp [escBody, shEvalAux]
  | cons c cs ih =>
    intro suffix
    by_cases hc : c = '\''
    · subst hc
      simp only [escBody, List.cons_append, if_pos rfl, beq_self_eq_true, if_true]
      rw [shEvalAux_true_quote, shEvalAux_false_backslash, shEvalAux_false_quote, ih]
      cases shEvalAux false suffix <;> rfl
    · have hcb : (c == '\'') = false := by simpa using hc
      simp only [escBody, hcb, if_false, List.cons_append, Bool.false_eq_true]
      rw [show shEvalAux true (c :: (escBody cs ++ '\'' :: suffix)) =
            (shEvalAux true (escBody cs ++ '\'' :: suffix)).map (fun l => c :: l) by
          simp [shEvalAux, hcb]]
      rw [ih]
      cases shEvalAux false suffix <;> rfl

/-- The destination POSIX shell evaluates a single-quote-escaped word back to
exactly the original characters. -/
theorem shEval_escBody (data : List Char) :
    shEval ('\'' :: (escBody data ++ ['\''])) = some data := by
  have h := shEvalAux_escBody data []
  rw [shEval, shEvalAux_false_quote, h]
  simp [shEvalAux]

theorem run_append (env : Env) (st : WinState) (es1 es2 : List InEvent) :
    run env st (es1 ++ es2) = run env (run env st es1) es2 := by
  induction es1 generalizing st with
  | nil => rfl
  | cons e es ih => simp [run, ih]

theorem teardownOne_trace (st : WinState) (u : String) :
    (teardownOne st u).trace = st.trace := rfl

theorem foldl_teardown_trace (l : List String) (st : WinState) :
    (l.foldl teardownOne st).trace = st.trace := by
  induction l generalizing st with
  | nil => rfl
  | cons u l ih => exact ih (teardownOne st u)

theorem foldl_teardown_deleteCount (l : List String) (st : WinState) :
    (l.foldl teardownOne st).deleteCount = st.deleteCount := by
  induction l generalizing st with
  | nil => rfl
  | cons u l ih => exact ih (teardownOne st u)

theorem foldl_teardown_flushCount (l : List String) (st : WinState) :
    (l.foldl teardownOne st).flushCount = st.flushCount := by
  induction l generalizing st with
  | nil => rfl
  | cons u l ih => exact ih (teardownOne st u)

theorem foldl_teardown_navCount (l : List String) (st : WinState) :
    (l.foldl teardownOne st).navCount = st.navCount := by
  induction l generalizing st with
  | nil => rfl
  | cons u l ih => exact ih (teardownOne st u)

theorem foldl_teardown_nextId (l : List String) (st : WinState) :
    (l.foldl teardownOne st).nextId = st.nextId := by
  induction l generalizing st with
  | nil => rfl
  | cons u l ih => exact ih (teardownOne st u)

theorem foldl_teardown_flags (l : List String) (st : WinState) :
    (l.foldl teardownOne st).winRecorded = st.winRecorded ∧
    (l.foldl teardownOne st).rpcDestroyed = st.rpcDestroyed ∧
    (l.foldl teardownOne st).cfgUnsubscribed = st.cfgUnsubscribed ∧
    (l.foldl teardownOne st).pluginsUnsubscribed = st.pluginsUnsubscribed := by
  induction l generalizing st with
  | nil => exact ⟨rfl, rfl, rfl, rfl⟩
  | cons u l ih => exact ih (teardownOne st u)

theorem deleteSessions_trace (st : WinState) :
    (deleteSessions st).trace = st.trace :=
  foldl_teardown_trace st.reg st

theorem deleteSessions_deleteCount (st : WinState) :
    (deleteSessions st).deleteCount = st.deleteCount + 1 := by
  show (st.reg.foldl teardownOne st).deleteCount + 1 = st.deleteCount + 1
  rw [foldl_teardown_deleteCount]

theorem teardownOne_warm_none (st : WinState) (u : String) (h : st.warm = none) :
    (teardownOne st u).warm = none := by
  simp [teardownOne, removeAllListenersOf, h]

theorem foldl_teardown_warm_none (l : List String) (st : WinState) (h : st.warm = none) :
    (l.foldl teardownOne st).warm = none := by
  induction l generalizing st with
  | nil => exact h
  | cons u l ih => exact ih (teardownOne st u) (teardownOne_warm_none st u h)

/-- Once `initialSession` has been set to null it is never reattached: no
handler ever recreates the warm slot. -/
theorem step_warm_none (env : Env) (st : WinState) (e : InEvent) (h : st.warm = none) :
    (step env st e).warm = none := by
  cases e with
  | ptyData uid d =>
    simp only [step, h]
    split <;> simp [emitEv, h]
  | ptyExit uid =>
    simp only [step, h]
    split <;> simp [emitEv, h]
  | rpcNew o =>
    simp [step, h, emitEv, createSession]
  | rpcExit uid =>
    simp only [step]
    cases hs : sessionsGet st uid <;> simp [hs, h]
  | rpcResize uid cols rows =>
    simp only [step]
    cases hs : sessionsGet st uid <;> simp [hs, h]
  | rpcData uid d esc =>
    simp only [step]
    cases hs : sessionsGet st uid <;> simp [hs, h]
  | didNavigate =>
    by_cases hn : st.navCount = 0
    · simp [step, hn, h]
    · simp only [step, if_neg hn]
      exact foldl_teardown_warm_none st.reg st h

/-- No handler increments the flush counter once the warm slot is gone: the
flush code path is guarded by `initialSession`. -/
theorem step_flush_of_warm_none (env : Env) (st : WinState) (e : InEvent) (h : st.warm = none) :
    (step env st e).flushCount = st.flushCount := by
  cases e with
  | ptyData uid d =>
    simp only [step, h]
    split <;> simp [emitEv, h]
  | ptyExit uid =>
    simp only [step, h]
    split <;> simp [emitEv, h]
  | rpcNew o =>
    simp [step, h, emitEv, createSession]
  | rpcExit uid =>
    simp only [step]
    cases hs : sessionsGet st uid <;> simp [hs, h]
  | rpcResize uid cols rows =>
    simp only [step]
    cases hs : sessionsGet st uid <;> simp [hs, h]
  | rpcData uid d esc =>
    simp only [step]
    cases hs : sessionsGet st uid <;> simp [hs, h]
  | didNavigate =>
    by_cases hn : st.navCount = 0
    · simp [step, hn, h]
    · simp only [step, if_neg hn]
      exact foldl_teardown_flushCount st.reg st

/-- Run version of the two lemmas above. -/
theorem run_warm_none (env : Env) (st : WinState) (es : List InEvent) (h : st.warm = none) :
    (run env st es).warm = none ∧ (run env st es).flushCount = st.flushCount := by
  induction es generalizing st with
  | nil => exact ⟨h, rfl⟩
  | cons e es ih =>
    have h1 := step_warm_none env st e h
    have h2 := step_flush_of_warm_none env st e h
    have h3 := ih (step env st e) h1
    exact ⟨h3.1, h3.2.trans h2⟩

/-- Every handler only appends to the outbound trace. -/
theorem step_trace_mono (env : Env) (st : WinState) (e : InEvent) :
    st.trace <+: (step env st e).trace := by
  cases e with
  | ptyData uid d =>
    simp only [step]
    rcases st.warm with _ | w
    · split <;> simp [emitEv]
    · repeat' split
      all_goals simp [emitEv]
  | ptyExit uid =>
    simp only [step]
    rcases st.warm with _ | w
    · split <;> simp [emitEv]
    · repeat' split
      all_goals simp [emitEv]
  | rpcNew o =>
    simp only [step]
    rcases st.warm with _ | w
    · simp [emitEv, createSession]
    · simp [emitEv, List.append_assoc]
  | rpcExit uid =>
    simp only [step]
    cases hs : sessionsGet st uid <;> simp [hs]
  | rpcResize uid cols rows =>
    simp only [step]
    cases hs : sessionsGet st uid <;> simp [hs]
  | rpcData uid d esc =>
    simp only [step]
    cases hs : sessionsGet st uid <;> simp [hs]
  | didNavigate =>
    by_cases hn : st.navCount = 0
    · simp [step, hn]
    · simp only [step, if_neg hn]
      show st.trace <+: (deleteSessions st).trace
      rw [deleteSessions_trace]

/-- Along any run the trace only grows: buffered events replayed at flush time
stay ahead of everything emitted later. -/
theorem run_trace_mono (env : Env) (st : WinState) (es : List InEvent) :
    st.trace <+: (run env st es).trace := by
  induction es generalizing st with
  | nil => exact List.prefix_refl _
  | cons e es ih => exact (step_trace_mono env st e).trans (ih (step env st e))

/-- Buffering lemma: while the UI has not yet asked for a session, pty data
events of the warmed session are appended, in order, to the pending event
buffer, and nothing is emitted. -/
theorem run_ptyData_buffer (env : Env) (datas : List String) :
    ∀ (st : WinState) (w : Warm), st.warm = some w → w.tempAttached = true →
    w.uid ∉ st.liveUids →
    run env st (datas.map (fun d => InEvent.ptyData w.uid d)) =
      { st with warm := some ({ w with
          buffer := w.buffer ++ datas.map (fun d => OutEvent.sessionData (w.uid ++ d)) }) } := by
  induction datas with
  | nil =>
    intro st w hw ht hl
    simp only [List.map_nil, List.append_nil, run]
    rw [← hw]
  | cons d ds ih =>
    intro st w hw ht hl
    simp only [List.map_cons, run]
    have hstep : step env st (InEvent.ptyData w.uid d) =
        { st with warm := some ({ w with buffer := w.buffer ++ [OutEvent.sessionData (w.uid ++ d)] }) } := by
      simp [step, hw, ht, hl, emitEv]
    rw [hstep]
    have hrec := ih ({ st with warm := some ({ w with buffer := w.buffer ++ [OutEvent.sessionData (w.uid ++ d)] }) })
        ({ w with buffer := w.buffer ++ [OutEvent.sessionData (w.uid ++ d)] }) rfl ht hl
    dsimp only at hrec
    rw [hrec]
    simp [List.append_assoc]

/-- The `new` handler when the warmed session is still available: register its
uid, emit `session add` built from the merged options and the warmed session's
shell and pid, replay the whole pending buffer, consume the warm slot, and
attach the permanent listeners. -/
theorem step_rpcNew_warm (env : Env) (st : WinState) (w : Warm) (o : SOpts)
    (hw : st.warm = some w) :
    step env st (.rpcNew o) =
      { st with
        reg := if w.uid ∈ st.reg then st.reg else st.reg ++ [w.uid]
        trace := (st.trace ++ [OutEvent.sessionAdd (addPayload (mergedSessionOpts env o) w.uid w.shell w.pid)]) ++ w.buffer
        flushCount := st.flushCount + 1
        warm := none
        liveUids := st.liveUids ++ [w.uid] } := by
  simp [step, hw, emitEv]

/-- Claim C1: if the first `new` request arrives after the warmer has buffered
N data events for the warmed session, the controller emits exactly one
`session add` for that session followed by exactly those N buffered
`session data` events in their original arrival order, and every buffered
event stays ahead of (is replayed before) anything forwarded afterwards. -/
theorem c1_buffered_events_replayed_before_live (env : Env) (datas : List String) (o : SOpts) :
    (run env (initState env)
        (datas.map (fun d => InEvent.ptyData (freshUid 0) d) ++ [InEvent.rpcNew o])).trace =
      OutEvent.sessionAdd (addPayload (mergedSessionOpts env o) (freshUid 0) env.cfgShell 0) ::
        datas.map (fun d => OutEvent.sessionData (freshUid 0 ++ d)) ∧
    ∀ es2 : List InEvent,
      (run env (initState env)
          (datas.map (fun d => InEvent.ptyData (freshUid 0) d) ++ [InEvent.rpcNew o])).trace <+:
        (run env (run env (initState env)
            (datas.map (fun d => InEvent.ptyData (freshUid 0) d) ++ [InEvent.rpcNew o])) es2).trace := by
  have hbuf := run_ptyData_buffer env datas (initState env) (initWarm env) rfl rfl
    (List.not_mem_nil _)
  dsimp only [initWarm, List.nil_append] at hbuf
  refine ⟨?_, fun es2 => run_trace_mono env _ es2⟩
  rw [run_append, hbuf]
  simp only [run]
  rw [step_rpcNew_warm env _ _ o rfl]
  simp
  rfl

/-- Claim C10: if the warmed session's process exits before the first `new`
request, the request still reuses the warmed session: the buffered exit does
not remove the registry entry, `session add` is emitted for the already-dead
session and the buffered `session exit` is replayed right after it, the entry
is still registered afterwards, and in general the reuse path is taken for
any state whose warm slot is occupied, consulting neither registry presence
nor process liveness. -/
theorem c10_dead_warmed_session_reused (env : Env) (o : SOpts) :
    freshUid 0 ∈ (step env (initState env) (.ptyExit (freshUid 0))).reg ∧
    (step env (initState env) (.ptyExit (freshUid 0))).trace = [] ∧
    (step env (step env (initState env) (.ptyExit (freshUid 0))) (.rpcNew o)).trace =
      [OutEvent.sessionAdd (addPayload (mergedSessionOpts env o) (freshUid 0) env.cfgShell 0),
       OutEvent.sessionExit none] ∧
    freshUid 0 ∈ (step env (step env (initState env) (.ptyExit (freshUid 0))) (.rpcNew o)).reg ∧
    ∀ (st : WinState) (w : Warm), st.warm = some w →
      (step env st (.rpcNew o)).trace =
        st.trace ++ OutEvent.sessionAdd (addPayload (mergedSessionOpts env o) w.uid w.shell w.pid) :: w.buffer := by
  have hl : freshUid 0 ∉ (initState env).liveUids := List.not_mem_nil _
  have hst1 : step env (initState env) (.ptyExit (freshUid 0)) =
      { initState env with
        warm := some ({ initWarm env with buffer := [OutEvent.sessionExit none] }) } := by
    simp [step, show (initState env).warm = some (initWarm env) from rfl, initWarm, hl, emitEv]
  refine ⟨?_, ?_, ?_, ?_, ?_⟩
  · rw [hst1]
    exact List.mem_singleton_self _
  · rw [hst1]
    rfl
  · rw [hst1, step_rpcNew_warm env _ _ o rfl]
    simp [initWarm]
    rfl
  · rw [hst1, step_rpcNew_warm env _ _ o rfl]
    simp [initWarm]
    exact List.mem_singleton_self _
  · intro st w hw
    rw [step_rpcNew_warm env st w o hw]
    simp

theorem updateHeap_keys (h : List (String × Session)) (uid : String) (f : Session → Session) :
    (updateHeap h uid f).map Prod.fst = h.map Prod.fst := by
  induction h with
  | nil => rfl
  | cons p t ih =>
    by_cases hp : p.1 = uid <;> simp [updateHeap, hp] <;>
      simpa [updateHeap] using ih

/-- The `new` handler when the warm slot is empty: create a fresh session
(with no options passed), register it, emit `session add`, and attach the
permanent listeners. -/
theorem step_rpcNew_none (env : Env) (st : WinState) (o : SOpts) (hw : st.warm = none) :
    step env st (.rpcNew o) =
      { (createSession env none st).2.2 with
        trace := (createSession env none st).2.2.trace ++
          [OutEvent.sessionAdd (addPayload (mergedSessionOpts env o) (createSession env none st).1
            (createSession env none st).2.1.shell (createSession env none st).2.1.pid)]
        liveUids := (createSession env none st).2.2.liveUids ++ [(createSession env none st).1] } := by
  simp [step, hw, emitEv]

theorem uidInv_teardownOne (st : WinState) (u : String) (h : uidInv st) :
    uidInv (teardownOne st u) := by
  obtain ⟨hh, hr, hw⟩ := h
  have hkeys : (teardownOne st u).heap.map Prod.fst = st.heap.map Prod.fst := by
    show (updateHeap (updateHeap st.heap u (fun s => { s with listenersRemoved := true })) u
        (fun s => { s with destroyed := true })).map Prod.fst = st.heap.map Prod.fst
    rw [updateHeap_keys, updateHeap_keys]
  refine ⟨?_, ?_, ?_⟩
  · rw [hkeys]
    exact hh
  · intro x hx
    rw [hkeys]
    exact hr x (List.mem_of_mem_filter hx)
  · intro w2 hw2
    rw [hkeys]
    have hw2' : st.warm.map
        (fun w => if w.uid = u then { w with tempAttached := false } else w) = some w2 := hw2
    rcases hwarm : st.warm with _ | w
    · rw [hwarm] at hw2'
      simp at hw2'
    · rw [hwarm] at hw2'
      simp only [Option.map_some'] at hw2'
      cases hw2'
      split <;> exact hw w hwarm

theorem uidInv_foldl_teardown (l : List String) (st : WinState) (h : uidInv st) :
    uidInv (l.foldl teardownOne st) := by
  induction l generalizing st with
  | nil => exact h
  | cons u l ih => exact ih (teardownOne st u) (uidInv_teardownOne st u h)

theorem uidInv_step (env : Env) (st : WinState) (e : InEvent) (h : uidInv st) :
    uidInv (step env st e) := by
  obtain ⟨hh, hr, hw⟩ := h
  cases e with
  | ptyData uid d =>
    rcases hwarm : st.warm with _ | w
    · simp only [step, hwarm]
      split <;> exact ⟨hh, hr, hw⟩
    · simp only [step, hwarm]
      repeat' split
      all_goals refine ⟨hh, hr, ?_⟩
      all_goals intro w2 hw2
      all_goals first
        | (injection hw2 with h2; subst h2; exact hw w hwarm)
        | (exact hw w2 hw2)
  | ptyExit uid =>
    rcases hwarm : st.warm with _ | w
    · simp only [step, hwarm]
      repeat' split
      all_goals refine ⟨hh, ?_, hw⟩
      all_goals first
        | exact hr
        | (intro u hu; exact hr u (List.mem_of_mem_filter hu))
    · simp only [step, hwarm]
      repeat' split
      all_goals refine ⟨hh, ?_, ?_⟩
      · intro u hu
        exact hr u (List.mem_of_mem_filter hu)
      · intro w2 hw2
        first
          | (injection hw2 with h2; subst h2; exact hw w hwarm)
          | (exact hw w2 hw2)
      · intro u hu
        exact hr u (List.mem_of_mem_filter hu)
      · intro w2 hw2
        first
          | (injection hw2 with h2; subst h2; exact hw w hwarm)
          | (exact hw w2 hw2)
      · exact hr
      · intro w2 hw2
        first
          | (injection hw2 with h2; subst h2; exact hw w hwarm)
          | (exact hw w2 hw2)
      · exact hr
      · intro w2 hw2
        first
          | (injection hw2 with h2; subst h2; exact hw w hwarm)
          | (exact hw w2 hw2)
  | rpcNew o =>
    rcases hwarm : st.warm with _ | w
    · rw [step_rpcNew_none env st o hwarm]
      refine ⟨?_, ?_, ?_⟩
      · show ((st.heap ++ [(freshUid st.nextId, _)]).map Prod.fst) =
          (List.range (st.nextId + 1)).map freshUid
        rw [List.map_append, hh, List.range_succ, List.map_append]
        simp
      · intro u hu
        show u ∈ (st.heap ++ [(freshUid st.nextId, _)]).map Prod.fst
        rw [List.map_append]
        rcases List.mem_append.mp hu with hu1 | hu2
        · exact List.mem_append_left _ (hr u hu1)
        · apply List.mem_append_right
          simpa using hu2
      · intro w2 hw2
        have hw2x : st.warm = some w2 := hw2
        rw [hwarm] at hw2x
        exact Option.noConfusion hw2x
    · rw [step_rpcNew_warm env st w o hwarm]
      refine ⟨hh, ?_, ?_⟩
      · intro u hu
        by_cases hmem : w.uid ∈ st.reg
        · rw [if_pos hmem] at hu
          exact hr u hu
        · rw [if_neg hmem] at hu
          rcases List.mem_append.mp hu with hu1 | hu2
          · exact hr u hu1
          · have he : u = w.uid := by simpa using hu2
            rw [he]
            exact hw w hwarm
      · intro w2 hw2
        cases hw2
  | rpcExit uid =>
    simp only [step]
    cases hs : sessionsGet st uid
    · exact ⟨hh, hr, hw⟩
    · refine ⟨?_, ?_, ?_⟩
      · dsimp only
        rw [updateHeap_keys]
        exact hh
      · intro u hu
        dsimp only
        rw [updateHeap_keys]
        exact hr u hu
      · intro w2 hw2
        dsimp only
        rw [updateHeap_keys]
        exact hw w2 hw2
  | rpcResize uid cols rows =>
    simp only [step]
    cases hs : sessionsGet st uid
    · exact ⟨hh, hr, hw⟩
    · refine ⟨?_, ?_, ?_⟩
      · dsimp only
        rw [updateHeap_keys]
        exact hh
      · intro u hu
        dsimp only
        rw [updateHeap_keys]
        exact hr u hu
      · intro w2 hw2
        dsimp only
        rw [updateHeap_keys]
        exact hw w2 hw2
  | rpcData uid d esc =>
    simp only [step]
    cases hs : sessionsGet st uid
    · exact ⟨hh, hr, hw⟩
    · refine ⟨?_, ?_, ?_⟩
      · dsimp only
        rw [updateHeap_keys]
        exact hh
      · intro u hu
        dsimp only
        rw [updateHeap_keys]
        exact hr u hu
      · intro w2 hw2
        dsimp only
        rw [updateHeap_keys]
        exact hw w2 hw2
  | didNavigate =>
    by_cases hn : st.navCount = 0
    · simp only [step, if_pos hn]
      exact ⟨hh, hr, hw⟩
    · simp only [step, if_neg hn]
      exact uidInv_foldl_teardown st.reg st ⟨hh, hr, hw⟩

theorem uidInv_init (env : Env) : uidInv (initState env) := by
  refine ⟨rfl, ?_, ?_⟩
  · intro u hu
    have hu2 : u ∈ [freshUid 0] := hu
    have he : u = freshUid 0 := by simpa using hu2
    rw [he]
    exact List.mem_singleton_self _
  · intro w hw2
    have hw3 : some (initWarm env) = some w := hw2
    injection hw3 with h3
    subst h3
    exact List.mem_singleton_self _

theorem uidInv_run (env : Env) (st : WinState) (es : List InEvent) (h : uidInv st) :
    uidInv (run env st es) := by
  induction es generalizing st with
  | nil => exact h
  | cons e es ih => exact ih (step env st e) (uidInv_step env st e h)

theorem freshUid_injective (a b : Nat) (hab : freshUid a = freshUid b) : a = b := by
  have h2 := congrArg String.length hab
  simp only [freshUid, String.length] at h2
  simpa using h2

/-- The uid of the next session to be created differs from every uid ever
stored and from every registered uid. -/
theorem freshUid_fresh (st : WinState) (h : uidInv st) :
    (∀ p ∈ st.heap, p.1 ≠ freshUid st.nextId) ∧ freshUid st.nextId ∉ st.reg := by
  have hkey : freshUid st.nextId ∉ st.heap.map Prod.fst := by
    rw [h.1]
    intro hmem
    rcases List.mem_map.mp hmem with ⟨k, hk, he⟩
    rw [List.mem_range] at hk
    have := freshUid_injective k st.nextId he
    omega
  constructor
  · intro p hp he
    exact hkey (he ▸ List.mem_map_of_mem Prod.fst hp)
  · intro hmem
    exact hkey (h.2.1 _ hmem)

theorem flushInv_init (env : Env) : flushInv (initState env) :=
  ⟨fun _ _ => rfl, Nat.zero_le 1⟩

theorem flushInv_step (env : Env) (st : WinState) (e : InEvent) (h : flushInv st) :
    flushInv (step env st e) := by
  by_cases hn : st.warm = none
  · have h1 := step_flush_of_warm_none env st e hn
    have h2 := step_warm_none env st e hn
    refine ⟨?_, ?_⟩
    · intro w2 hw2
      rw [h2] at hw2
      exact Option.noConfusion hw2
    · rw [h1]
      exact h.2
  · obtain ⟨w, hwarm⟩ := Option.ne_none_iff_exists'.mp hn
    have h0 : st.flushCount = 0 := h.1 w hwarm
    cases e with
    | ptyData uid d =>
      simp only [step, hwarm]
      repeat' split
      all_goals exact ⟨fun _ _ => h0, by show st.flushCount ≤ 1; omega⟩
    | ptyExit uid =>
      simp only [step, hwarm]
      repeat' split
      all_goals exact ⟨fun _ _ => h0, by show st.flushCount ≤ 1; omega⟩
    | rpcNew o =>
      rw [step_rpcNew_warm env st w o hwarm]
      refine ⟨?_, ?_⟩
      · intro w2 hw2
        exact Option.noConfusion hw2
      · show st.flushCount + 1 ≤ 1
        omega
    | rpcExit uid =>
      simp only [step]
      cases hs : sessionsGet st uid <;> dsimp only <;>
        exact ⟨fun _ _ => h0, by show st.flushCount ≤ 1; omega⟩
    | rpcResize uid cols rows =>
      simp only [step]
      cases hs : sessionsGet st uid <;> dsimp only <;>
        exact ⟨fun _ _ => h0, by show st.flushCount ≤ 1; omega⟩
    | rpcData uid d esc =>
      simp only [step]
      cases hs : sessionsGet st uid <;> dsimp only <;>
        exact ⟨fun _ _ => h0, by show st.flushCount ≤ 1; omega⟩
    | didNavigate =>
      by_cases hnv : st.navCount = 0
      · simp only [step, if_pos hnv]
        exact ⟨fun _ _ => h0, by show st.flushCount ≤ 1; omega⟩
      · simp only [step, if_neg hnv]
        refine ⟨fun w2 hw2 => ?_, ?_⟩
        · show (st.reg.foldl teardownOne st).flushCount = 0
          rw [foldl_teardown_flushCount]
          exact h0
        · show (st.reg.foldl teardownOne st).flushCount ≤ 1
          rw [foldl_teardown_flushCount]
          omega

theorem flushInv_run (env : Env) (st : WinState) (es : List InEvent) (h : flushInv st) :
    flushInv (run env st es) := by
  induction es generalizing st with
  | nil => exact h
  | cons e es ih => exact ih (step env st e) (flushInv_step env st e h)

/-- Claim C2: in any run, only the first `new` request can consume the warmed
session: the pending event buffer is flushed at most once; once the warm slot
is consumed it stays empty forever (the temporary listeners are detached and
never reattached, so no further flush can occur); and any `new` request
arriving after consumption allocates a genuinely fresh session whose uid was
never registered nor stored before. -/
theorem c2_first_new_consumes_warm (env : Env) (es : List InEvent) (o : SOpts) :
    (run env (initState env) es).flushCount ≤ 1 ∧
    ((run env (initState env) es).warm = none →
      ∀ es2 : List InEvent,
        (run env (run env (initState env) es) es2).warm = none ∧
        (run env (run env (initState env) es) es2).flushCount =
          (run env (initState env) es).flushCount) ∧
    ((run env (initState env) es).warm = none →
      (step env (run env (initState env) es) (.rpcNew o)).reg =
        (run env (initState env) es).reg ++ [freshUid (run env (initState env) es).nextId] ∧
      freshUid (run env (initState env) es).nextId ∉ (run env (initState env) es).reg ∧
      ∀ p ∈ (run env (initState env) es).heap,
        p.1 ≠ freshUid (run env (initState env) es).nextId) := by
  have hinv := uidInv_run env (initState env) es (uidInv_init env)
  have hf := flushInv_run env (initState env) es (flushInv_init env)
  refine ⟨hf.2, fun hn es2 => run_warm_none env _ es2 hn, fun hn => ?_⟩
  refine ⟨?_, (freshUid_fresh _ hinv).2, (freshUid_fresh _ hinv).1⟩
  rw [step_rpcNew_none env _ o hn]
  rfl

/-- Witness for C2 at a concrete run: one `new` request consumes the warm
slot, the flush counter stays at most one, a second `new` leaves the warm
slot empty, and the fresh uid is new. -/
theorem c2_first_new_consumes_warm_witness :
    (run envW (initState envW) [InEvent.rpcNew {}]).flushCount ≤ 1 ∧
    (run envW (run envW (initState envW) [InEvent.rpcNew {}]) [InEvent.rpcNew {}]).warm = none ∧
    freshUid (run envW (initState envW) [InEvent.rpcNew {}]).nextId ∉
      (run envW (initState envW) [InEvent.rpcNew {}]).reg := by
  have h := c2_first_new_consumes_warm envW [InEvent.rpcNew {}] {}
  have hn : (run envW (initState envW) [InEvent.rpcNew {}]).warm = none := by decide
  exact ⟨h.1, (h.2.1 hn [InEvent.rpcNew {}]).1, (h.2.2 hn).2.1⟩

/-- Claim C4: a `resize`, `data`, or `exit` event whose uid is not registered
is a complete no-op: the state — registry, sessions, trace — is unchanged and
no error is raised (the handlers are total). -/
theorem c4_unknown_uid_ignored (env : Env) (st : WinState) (uid : String) (cols rows : Nat)
    (d : String) (esc : Bool) (h : uid ∉ st.reg) :
    step env st (.rpcExit uid) = st ∧
    step env st (.rpcResize uid cols rows) = st ∧
    step env st (.rpcData uid d esc) = st := by
  have hget : sessionsGet st uid = none := by simp [sessionsGet, h]
  refine ⟨?_, ?_, ?_⟩ <;> simp [step, hget]

/-- Witness for C4: an unregistered uid in a fresh window. -/
theorem c4_unknown_uid_ignored_witness :
    step envW (initState envW) (.rpcExit "zz") = initState envW ∧
    step envW (initState envW) (.rpcResize "zz" 10 20) = initState envW ∧
    step envW (initState envW) (.rpcData "zz" "x" true) = initState envW :=
  c4_unknown_uid_ignored envW (initState envW) "zz" 10 20 "x" true (by decide)

theorem step_didNavigate_navCount (env : Env) (st : WinState) :
    (step env st .didNavigate).navCount = st.navCount + 1 := rfl

theorem step_didNavigate_first (env : Env) (st : WinState) (h : st.navCount = 0) :
    (step env st .didNavigate).deleteCount = st.deleteCount := by
  simp only [step, if_pos h]

theorem step_didNavigate_later (env : Env) (st : WinState) (h : st.navCount ≠ 0) :
    (step env st .didNavigate).deleteCount = st.deleteCount + 1 := by
  simp only [step, if_neg h]
  exact deleteSessions_deleteCount st

theorem run_nav_replicate (env : Env) (n : Nat) :
    ∀ st : WinState, st.navCount ≠ 0 →
    (run env st (List.replicate n InEvent.didNavigate)).deleteCount = st.deleteCount + n := by
  induction n with
  | zero => intro st h; rfl
  | succ m ih =>
    intro st h
    rw [List.replicate_succ]
    show (run env (step env st .didNavigate) (List.replicate m .didNavigate)).deleteCount = _
    rw [ih (step env st .didNavigate) (by rw [step_didNavigate_navCount]; omega)]
    rw [step_didNavigate_later env st h]
    omega

/-- Claim C6: starting from a freshly attached window (navigation counter 0),
the first `did-navigate` event triggers no registry teardown, every later one
triggers exactly one `deleteSessions` invocation, and hence n navigations
tear down exactly n-1 times (so the second navigation triggers exactly one). -/
theorem c6_navigation_teardown (env : Env) (st : WinState) (n : Nat) (h : st.navCount = 0) :
    (step env st .didNavigate).deleteCount = st.deleteCount ∧
    (∀ st2 : WinState, st2.navCount ≠ 0 →
      (step env st2 .didNavigate).deleteCount = st2.deleteCount + 1) ∧
    (run env st (List.replicate n InEvent.didNavigate)).deleteCount = st.deleteCount + (n - 1) := by
  refine ⟨step_didNavigate_first env st h, fun st2 h2 => step_didNavigate_later env st2 h2, ?_⟩
  cases n with
  | zero =>
    show st.deleteCount = st.deleteCount + (0 - 1)
    omega
  | succ m =>
    rw [List.replicate_succ]
    show (run env (step env st .didNavigate) (List.replicate m .didNavigate)).deleteCount = _
    rw [run_nav_replicate env m (step env st .didNavigate)
      (by rw [step_didNavigate_navCount]; omega)]
    rw [step_didNavigate_first env st h]
    omega

/-- Witness for C6: two navigations after attach cause exactly one teardown,
a single navigation causes none. -/
theorem c6_navigation_teardown_witness :
    (run envW (initState envW) (List.replicate 2 InEvent.didNavigate)).deleteCount = 1 ∧
    (run envW (initState envW) (List.replicate 1 InEvent.didNavigate)).deleteCount = 0 := by
  have h2 := c6_navigation_teardown envW (initState envW) 2 rfl
  have h1 := c6_navigation_teardown envW (initState envW) 1 rfl
  exact ⟨h2.2.2, h1.2.2⟩

theorem foldl_teardown_reg_nil (l : List String) :
    ∀ st : WinState, (∀ u ∈ st.reg, u ∈ l) → (l.foldl teardownOne st).reg = [] := by
  induction l with
  | nil =>
    intro st h
    cases hreg : st.reg with
    | nil => exact hreg
    | cons a t =>
      exact absurd (h a (by rw [hreg]; exact List.mem_cons_self a t)) (List.not_mem_nil a)
  | cons u l ih =>
    intro st h
    show (l.foldl teardownOne (teardownOne st u)).reg = []
    apply ih
    intro x hx
    have hx2 : x ∈ st.reg.filter (fun v => v != u) := hx
    have hmem := List.mem_of_mem_filter hx2
    have hne : x ≠ u := by simpa using List.of_mem_filter hx2
    rcases List.mem_cons.mp (h x hmem) with h1 | h1
    · exact absurd h1 hne
    · exact h1

theorem deleteSessions_reg (st : WinState) : (deleteSessions st).reg = [] :=
  foldl_teardown_reg_nil st.reg st (fun _ hu => hu)

theorem lookup_updateHeap (h : List (String × Session)) (k : String) (f : Session → Session)
    (uid : String) :
    (updateHeap h k f).lookup uid = if uid = k then (h.lookup uid).map f else h.lookup uid := by
  induction h with
  | nil =>
    simp only [updateHeap, List.map_nil, List.lookup_nil, Option.map_none']
    split <;> rfl
  | cons p t ih =>
    rcases p with ⟨pk, pv⟩
    by_cases hp : pk = k
    · subst hp
      simp only [updateHeap, List.map_cons] at ih ⊢
      simp only [if_true]
      by_cases hu : uid = pk
      · subst hu
        simp [List.lookup_cons]
      · have hub : (uid == pk) = false := beq_false_of_ne hu
        simp only [List.lookup_cons, hub, if_neg hu] at ih ⊢
        exact ih
    · simp only [updateHeap, List.map_cons] at ih ⊢
      rw [if_neg hp]
      by_cases hu : uid = pk
      · subst hu
        simp [List.lookup_cons, hp]
      · have hub : (uid == pk) = false := beq_false_of_ne hu
        simp only [List.lookup_cons, hub]
        exact ih

theorem foldl_teardown_lookup (l : List String) :
    ∀ (st : WinState) (uid : String) (s : Session), st.heap.lookup uid = some s →
    (l.foldl teardownOne st).heap.lookup uid =
      some (if uid ∈ l then { s with listenersRemoved := true, destroyed := true } else s) := by
  induction l with
  | nil =>
    intro st uid s hl
    simpa using hl
  | cons u l ih =>
    intro st uid s hl
    show (l.foldl teardownOne (teardownOne st u)).heap.lookup uid = _
    have h1 : (teardownOne st u).heap.lookup uid =
        some (if uid = u then { s with listenersRemoved := true, destroyed := true } else s) := by
      show (updateHeap (updateHeap st.heap u (fun s => { s with listenersRemoved := true })) u
          (fun s => { s with destroyed := true })).lookup uid = _
      rw [lookup_updateHeap, lookup_updateHeap, hl]
      by_cases hu : uid = u <;> simp [hu]
    by_cases hu : uid = u
    · subst hu
      rw [ih _ _ _ (by rw [h1, if_pos rfl])]
      by_cases hm : uid ∈ l <;> simp [hm]
    · rw [ih _ _ _ (by rw [h1, if_neg hu])]
      by_cases hm : uid ∈ l <;> simp [hm, hu]

/-- Claim C7: after `deleteSessions` the registry is empty — `get` answers
absent for every identifier — every previously registered session object has
had its listeners removed and its process destroyed, and on an already-empty
registry the call changes nothing (only the ghost invocation counter moves). -/
theorem c7_deleteSessions_teardown (st : WinState) :
    (deleteSessions st).reg = [] ∧
    (∀ uid, sessionsGet (deleteSessions st) uid = none) ∧
    (∀ uid s, uid ∈ st.reg → st.heap.lookup uid = some s →
      (deleteSessions st).heap.lookup uid =
        some { s with listenersRemoved := true, destroyed := true }) ∧
    (st.reg = [] → deleteSessions st = { st with deleteCount := st.deleteCount + 1 }) := by
  refine ⟨deleteSessions_reg st, ?_, ?_, ?_⟩
  · intro uid
    simp [sessionsGet, deleteSessions_reg st]
  · intro uid s hm hl
    show (st.reg.foldl teardownOne st).heap.lookup uid = _
    rw [foldl_teardown_lookup st.reg st uid s hl, if_pos hm]
  · intro hreg
    simp [deleteSessions, hreg]

/-- Witness for C7: tearing down a fresh window's registry empties it and
marks the warmed session destroyed with listeners removed. -/
theorem c7_deleteSessions_teardown_witness :
    (deleteSessions (initState envW)).reg = [] ∧
    sessionsGet (deleteSessions (initState envW)) (freshUid 0) = none ∧
    (deleteSessions (initState envW)).heap.lookup (freshUid 0) =
      some ({ ({ opts := { uid := some (freshUid 0) }, shell := "/bin/bash", pid := 0 } : Session) with
        listenersRemoved := true, destroyed := true }) := by
  have h := c7_deleteSessions_teardown (initState envW)
  exact ⟨h.1, h.2.1 (freshUid 0),
    h.2.2.1 (freshUid 0) ({ opts := { uid := some (freshUid 0) }, shell := "/bin/bash", pid := 0 })
      (by decide) (by decide)⟩

/-- Counterexample to claim C8 as stated: when a win32 window is closed
before `attachRPC` has run, the installed cleanup (`window.clean`, window.js
lines 319-322) persists the recency record and unsubscribes from config
changes, but does not destroy the RPC channel, does not destroy sessions,
and does not unsubscribe from plugin changes — so the cleanup does not
unconditionally perform all five teardown actions. -/
theorem c8_preattach_clean_counterexample :
    (cleanPreAttach preAttachState).winRecorded = true ∧
    (cleanPreAttach preAttachState).cfgUnsubscribed = true ∧
    (cleanPreAttach preAttachState).rpcDestroyed = false ∧
    (cleanPreAttach preAttachState).pluginsUnsubscribed = false ∧
    (cleanPreAttach preAttachState).deleteCount = 0 := by
  decide

/-- Claim C8 as amended: once the RPC channel is attached, `window.clean`
unconditionally performs all five teardown actions (persist the recency
record, destroy the RPC channel, destroy all registered sessions, unsubscribe
from config changes, unsubscribe from plugin changes); the win32 pre-attach
variant performs only the record persist and the config unsubscribe, the
other three resources not existing yet. -/
theorem c8_clean_actions (st : WinState) :
    (clean st).winRecorded = true ∧
    (clean st).rpcDestroyed = true ∧
    (clean st).reg = [] ∧
    (clean st).deleteCount = st.deleteCount + 1 ∧
    (clean st).cfgUnsubscribed = true ∧
    (clean st).pluginsUnsubscribed = true ∧
    (cleanPreAttach st).winRecorded = true ∧
    (cleanPreAttach st).cfgUnsubscribed = true ∧
    (cleanPreAttach st).rpcDestroyed = st.rpcDestroyed ∧
    (cleanPreAttach st).deleteCount = st.deleteCount ∧
    (cleanPreAttach st).pluginsUnsubscribed = st.pluginsUnsubscribed := by
  refine ⟨?_, ?_, ?_, ?_, rfl, rfl, rfl, rfl, rfl, rfl, rfl⟩
  · show ((({ st with winRecorded := true, rpcDestroyed := true } : WinState)).reg.foldl teardownOne
      ({ st with winRecorded := true, rpcDestroyed := true })).winRecorded = true
    rw [(foldl_teardown_flags _ _).1]
  · show ((({ st with winRecorded := true, rpcDestroyed := true } : WinState)).reg.foldl teardownOne
      ({ st with winRecorded := true, rpcDestroyed := true })).rpcDestroyed = true
    rw [(foldl_teardown_flags _ _).2.1]
  · exact deleteSessions_reg ({ st with winRecorded := true, rpcDestroyed := true })
  · show (deleteSessions ({ st with winRecorded := true, rpcDestroyed := true } : WinState)).deleteCount =
      st.deleteCount + 1
    rw [deleteSessions_deleteCount]

/-- Claim C3 (code bug evidence): when the warmed session exits before the
first `new` request, the flush replays a `session exit` with no payload at
all (window.js line 104 pushes `['session exit']`), while a live exit of the
same session carries `\x7buid\x7d` — the buffered replay violates the outbound
contract that every `session exit` carries the exiting session's uid. -/
theorem c3_buffered_exit_lacks_uid :
    (run envW (initState envW) [InEvent.ptyExit (freshUid 0), InEvent.rpcNew {}]).trace =
      [OutEvent.sessionAdd (addPayload (mergedSessionOpts envW {}) (freshUid 0) "/bin/bash" 0),
       OutEvent.sessionExit none] ∧
    (run envW (initState envW) [InEvent.rpcNew {}, InEvent.ptyExit (freshUid 0)]).trace =
      [OutEvent.sessionAdd (addPayload (mergedSessionOpts envW {}) (freshUid 0) "/bin/bash" 0),
       OutEvent.sessionExit (some (freshUid 0))] := by
  decide

/-- Claim C9 (code bug evidence): the `new` handler builds the merged
`sessionOpts` (rows 50 and zsh here) but calls `createSession()` with no
argument (window.js line 140), so the second session is constructed with
only its uid — no rows, no shell — and is spawned with the config shell,
while the emitted `session add` advertises the merged geometry. -/
theorem c9_merged_options_not_used :
    ((run envW (initState envW)
        [InEvent.rpcNew {}, InEvent.rpcNew { rows := some 50, shell := some "/bin/zsh" }]).heap.lookup
      (freshUid 1)).map Session.opts = some { uid := some (freshUid 1) } ∧
    (mergedSessionOpts envW { rows := some 50, shell := some "/bin/zsh" }).rows = some 50 ∧
    (mergedSessionOpts envW { rows := some 50, shell := some "/bin/zsh" }).shell = some "/bin/zsh" ∧
    ((run envW (initState envW)
        [InEvent.rpcNew {}, InEvent.rpcNew { rows := some 50, shell := some "/bin/zsh" }]).heap.lookup
      (freshUid 1)).map Session.shell = some "/bin/bash" ∧
    (run envW (initState envW)
        [InEvent.rpcNew {}, InEvent.rpcNew { rows := some 50, shell := some "/bin/zsh" }]).trace =
      [OutEvent.sessionAdd (addPayload (mergedSessionOpts envW {}) (freshUid 0) "/bin/bash" 0),
       OutEvent.sessionAdd (addPayload
         (mergedSessionOpts envW { rows := some 50, shell := some "/bin/zsh" }) (freshUid 1)
         "/bin/bash" 1)] := by
  decide

/-- Counterexample to claim C5 as stated: on a cmd.exe shell the double-quote
wrap does not neutralize a double quote inside the data — for `a"&"b` the
written argument is `"a"&"b"`, in which the `&` stands outside any quote and
is interpreted by the shell, so evaluation does not return the original
data. -/
theorem c5_cmd_quote_not_safe :
    jsEndsWith "cmd.exe" "cmd.exe" = true ∧
    cmdEval (escapeData "cmd.exe" (String.mk ['a', '"', '&', '"', 'b'])).data = none ∧
    cmdEval (escapeData "cmd.exe" (String.mk ['a', '"', '&', '"', 'b'])).data ≠
      some (String.mk ['a', '"', '&', '"', 'b']).data := by
  decide

/-- Claim C5 as amended: for every data string written with escaped=true to a
non-cmd shell, the single-quote strategy (wrap in single quotes, each embedded
quote replaced by quote-backslash-quote-quote) produces a string the
destination POSIX shell evaluates back to exactly the original data; and
`rm -rf /` on a non-cmd shell yields the single write `'rm -rf /'`.  (The
cmd.exe double-quote wrap does not have this property for data containing a
double quote — see the counterexample.) -/
theorem c5_single_quote_roundtrip (sh data : String) (h : jsEndsWith sh "cmd.exe" = false) :
    shEval (escapeData sh data).data = some data.data ∧
    ((sessionsGet (run envW (initState envW)
        [InEvent.rpcNew {}, InEvent.rpcData (freshUid 0) "rm -rf /" true]) (freshUid 0)).map
      Session.writes) = some [String.mk ('\'' :: ("rm -rf /").data ++ ['\''])] := by
  constructor
  · have hrt := shEval_escBody data.data
    simpa [escapeData, h] using hrt
  · decide

/-- Witness for C5 (amended): `it's` round-trips under the single-quote
strategy on a bash shell. -/
theorem c5_single_quote_roundtrip_witness :
    shEval (escapeData "/bin/bash" (String.mk ['i', 't', '\'', 's'])).data =
      some (String.mk ['i', 't', '\'', 's']).data :=
  (c5_single_quote_roundtrip "/bin/bash" (String.mk ['i', 't', '\'', 's']) (by decide)).1

/-- Witness for C10: in a fresh window the `new` request takes the warm-reuse
path, emitting `session add` for the warmed session followed by its buffer. -/
theorem c10_dead_warmed_session_reused_witness :
    (step envW (initState envW) (.rpcNew {})).trace =
      (initState envW).trace ++
        OutEvent.sessionAdd (addPayload (mergedSessionOpts envW {}) (initWarm envW).uid
          (initWarm envW).shell (initWarm envW).pid) :: (initWarm envW).buffer :=
  (c10_dead_warmed_session_reused envW {}).2.2.2.2 (initState envW) (initWarm envW) rfl
